import Mathlib

/-!
Shallow embedding of the HelixSoft clinical-data ingestion pipeline
(`Batch_2_Assignment.py`).  Pure fragments of the Python code are translated
into executable Lean definitions; the stateful pipeline becomes explicit state
passing over a `PState` record, and the GUI worker/busy-flag protocol becomes
a small labelled transition system.  Character-class tests of the Python
runtime (`\d`, `re.IGNORECASE`, `str.strip`, `int(...)`, `strptime`) are
modelled over ASCII, which covers every literal the program manipulates.
-/

namespace Helix

/-- ASCII decimal digit test, the model of the regex class `\d`. -/
def isAsciiDigit (c : Char) : Bool := decide ('0' ≤ c) && decide (c ≤ '9')

/-- ASCII lower-casing, the model of `re.IGNORECASE` comparison on the
ASCII letters occurring in the program's patterns. -/
def lowerAscii (c : Char) : Char :=
  if decide ('A' ≤ c) && decide (c ≤ 'Z') then Char.ofNat (c.toNat + 32) else c

/-- Match a literal case-insensitively at the head of the input, returning
the unconsumed rest (the regex engine's handling of a literal under
`re.IGNORECASE`). -/
def matchLit : List Char → List Char → Option (List Char)
  | [], cs => some cs
  | _ :: _, [] => none
  | l :: ls, c :: cs => if lowerAscii c = lowerAscii l then matchLit ls cs else none

/-- Match exactly `n` decimal digits at the head of the input (the regex
engine's handling of `\d{n}`). -/
def matchDigits : Nat → List Char → Option (List Char)
  | 0, cs => some cs
  | _ + 1, [] => none
  | n + 1, c :: cs => if isAsciiDigit c then matchDigits n cs else none

/-- Model of the regex anchor `$` outside MULTILINE mode: it matches at the
very end of the string or just before one trailing newline. -/
def dollarEnd (cs : List Char) : Bool := decide (cs = [] ∨ cs = ['\n'])

/-- Embedding of `re.match(r'^CLINICALDATA\d{14}\.CSV$', filename, re.IGNORECASE)`
from `_validate_filename_pattern`. -/
def clinicalNameMatch (cs : List Char) : Bool :=
  Option.elim
    ((matchLit "CLINICALDATA".data cs).bind fun r1 =>
      (matchDigits 14 r1).bind fun r2 => matchLit ".CSV".data r2)
    false dollarEnd

/-- The pure predicate of the source's `_validate_filename_pattern`. -/
def validate_filename_pattern (filename : String) : Bool :=
  clinicalNameMatch filename.data

/-- A name of exactly the shape the specification describes: the fixed
12-letter prefix, then exactly 14 decimal digits, then the fixed 4-character
extension, case-insensitive on the prefix and on the extension, and nothing
else.  Stated independently of the regex embedding for comparison with it. -/
def isSpecShapedName (cs : List Char) : Bool :=
  decide (cs.length = 30) &&
  decide ((cs.take 12).map lowerAscii = "CLINICALDATA".data.map lowerAscii) &&
  ((cs.drop 12).take 14).all isAsciiDigit &&
  decide (((cs.drop 12).drop 14).map lowerAscii = ".CSV".data.map lowerAscii)

/-- ASCII whitespace stripped by Python `int(...)` around its argument. -/
def isPyWhitespace (c : Char) : Bool :=
  c == ' ' || c == '\t' || c == '\n' || c == '\r' || c == '\x0b' || c == '\x0c'

/-- Strip leading and trailing whitespace. -/
def stripWs (cs : List Char) : List Char :=
  ((cs.dropWhile isPyWhitespace).reverse.dropWhile isPyWhitespace).reverse

/-- After a first digit, digits may continue, with single underscores allowed
only between digits (Python numeric-literal rule used by `int(...)`). -/
def digitsRestOk : List Char → Bool
  | [] => true
  | '_' :: c :: rest => isAsciiDigit c && digitsRestOk rest
  | ['_'] => false
  | c :: rest => isAsciiDigit c && digitsRestOk rest

/-- A nonempty digit token, underscores allowed between digits. -/
def digitsToken (cs : List Char) : Bool :=
  match cs with
  | [] => false
  | c :: rest => isAsciiDigit c && digitsRestOk rest

/-- Decimal value of a digit token, ignoring underscores. -/
def digitsVal (cs : List Char) : Nat :=
  (cs.filter (fun c => c != '_')).foldl (fun a c => 10 * a + (c.toNat - '0'.toNat)) 0

/-- Model of Python `int(...)` on ASCII input: optional surrounding
whitespace, an optional sign, then a digit token. -/
def pyInt (s : String) : Option Int :=
  match stripWs s.data with
  | '+' :: rest => if digitsToken rest then some (Int.ofNat (digitsVal rest)) else none
  | '-' :: rest => if digitsToken rest then some (-(Int.ofNat (digitsVal rest))) else none
  | cs => if digitsToken cs then some (Int.ofNat (digitsVal cs)) else none

/-- Gregorian leap-year rule used by `datetime`. -/
def isLeapYear (y : Nat) : Bool :=
  decide (y % 4 = 0) && (decide (y % 100 ≠ 0) || decide (y % 400 = 0))

/-- Length of a month as checked by the `datetime` constructor. -/
def daysInMonth (y m : Nat) : Nat :=
  if m = 2 then (if isLeapYear y then 29 else 28)
  else if m = 4 ∨ m = 6 ∨ m = 9 ∨ m = 11 then 30
  else 31

/-- Greedily take up to two leading digits (the `strptime` regexes for `%m`
and `%d` accept one or two digits, and the following literal `-` or the end
of the string makes the greedy choice deterministic). -/
def takeUpTo2Digits : List Char → List Char × List Char
  | [] => ([], [])
  | [a] => if isAsciiDigit a then ([a], []) else ([], [a])
  | a :: b :: rest =>
    if isAsciiDigit a then
      if isAsciiDigit b then ([a, b], rest) else ([a], b :: rest)
    else ([], a :: b :: rest)

/-- Model of `datetime.strptime(s, "%Y-%m-%d")` followed by the `datetime`
constructor's range checks: a four-digit year of value at least 1, a one- or
two-digit month 1..12, a one- or two-digit day valid for that month and year,
and the whole string must be consumed. -/
def parseDateYMD (s : String) : Option (Nat × Nat × Nat) :=
  let cs := s.data
  let ys := cs.take 4
  if decide (ys.length = 4) && ys.all isAsciiDigit then
    match cs.drop 4 with
    | '-' :: rest1 =>
      (fun (p : List Char × List Char) =>
        match p with
        | (ms, rest2) =>
          if ms.isEmpty then none
          else
            match rest2 with
            | '-' :: rest3 =>
              (fun (q : List Char × List Char) =>
                match q with
                | (ds, rest4) =>
                  if ds.isEmpty || !rest4.isEmpty then none
                  else
                    let y := digitsVal ys
                    let m := digitsVal ms
                    let d := digitsVal ds
                    if 1 ≤ y ∧ 1 ≤ m ∧ m ≤ 12 ∧ 1 ≤ d ∧ d ≤ daysInMonth y m then
                      some (y, m, d)
                    else none) (takeUpTo2Digits rest3)
            | _ => none) (takeUpTo2Digits rest1)
    | _ => none
  else none

/-- Comparison of two calendar dates, as `datetime` order on pure dates. -/
def dateLt (a b : Nat × Nat × Nat) : Bool :=
  decide (a.1 < b.1 ∨ (a.1 = b.1 ∧ (a.2.1 < b.2.1 ∨ (a.2.1 = b.2.1 ∧ a.2.2 < b.2.2))))

/-- Model of `"sep".join(parts)`. -/
def joinWith (sep : String) : List String → String
  | [] => ""
  | [x] => x
  | x :: y :: rest => x ++ sep ++ joinWith sep (y :: rest)

/-- Fuel-driven scanner behind `pyReplace`; with fuel at least the input
length and a nonempty pattern it replaces every occurrence left to right. -/
def replaceFuel (pat repl : List Char) : Nat → List Char → List Char
  | 0, cs => cs
  | _ + 1, [] => []
  | fuel + 1, c :: rest =>
    if (c :: rest).take pat.length = pat then
      repl ++ replaceFuel pat repl fuel ((c :: rest).drop pat.length)
    else
      c :: replaceFuel pat repl fuel rest

/-- Model of Python `str.replace` (all occurrences, left to right,
case-sensitive; the program only uses nonempty patterns). -/
def pyReplace (s pat repl : String) : String :=
  ⟨replaceFuel pat.data repl.data s.data.length s.data⟩

/-- Archive name computed by `process_selected_files`: remove the exact
substrings `.CSV` and `.csv`, then append an underscore, the processing date
and the literal `.CSV`. -/
def archive_filename (filename date : String) : String :=
  pyReplace (pyReplace filename ".CSV" "") ".csv" "" ++ "_" ++ date ++ ".CSV"

/-- The fixed 9-field header of `_validate_csv_content`. -/
def expected_fields : List String :=
  ["PatientID", "TrialCode", "DrugCode", "Dosage_mg",
   "StartDate", "EndDate", "Outcome", "SideEffects", "Analyst"]

/-- The single header-mismatch message (the Python f-string renders the
expected field list with `repr` quoting). -/
def header_error_msg : String :=
  "Invalid header. Expected 9 fields: [\x27PatientID\x27, \x27TrialCode\x27, \x27DrugCode\x27, \x27Dosage_mg\x27, \x27StartDate\x27, \x27EndDate\x27, \x27Outcome\x27, \x27SideEffects\x27, \x27Analyst\x27]"

/-- Any of the nine fields is empty (Python truthiness of `all([...])`). -/
def missingFieldsDefect (p t d dos sd ed oc se an : String) : Bool :=
  p == "" || t == "" || d == "" || dos == "" || sd == "" ||
  ed == "" || oc == "" || se == "" || an == ""

/-- The dosage field fails to parse as a positive integer. -/
def dosageDefect (dos : String) : Bool :=
  match pyInt dos with
  | some v => decide (v ≤ 0)
  | none => true

/-- Messages contributed by the dosage check of the row loop. -/
def dosageErrors (dos : String) : List String :=
  match pyInt dos with
  | some v =>
    if v ≤ 0 then ["Dosage must be positive integer, got \x27" ++ dos ++ "\x27"] else []
  | none => ["Non-numeric dosage: \x27" ++ dos ++ "\x27"]

/-- Either date fails to parse, or the end date precedes the start date. -/
def dateDefect (sd ed : String) : Bool :=
  match parseDateYMD ed, parseDateYMD sd with
  | some e, some s => dateLt e s
  | _, _ => true

/-- Messages contributed by the date check of the row loop. -/
def dateErrors (sd ed : String) : List String :=
  match parseDateYMD ed, parseDateYMD sd with
  | some e, some s =>
    if dateLt e s then ["EndDate (" ++ ed ++ ") before StartDate (" ++ sd ++ ")"] else []
  | _, _ => ["Invalid date format (expected YYYY-MM-DD)"]

/-- The outcome field is outside the fixed three-value enumeration. -/
def outcomeDefect (oc : String) : Bool :=
  !(oc == "Improved" || oc == "No Change" || oc == "Worsened")

/-- Messages contributed by the outcome check of the row loop. -/
def outcomeErrors (oc : String) : List String :=
  if oc == "Improved" || oc == "No Change" || oc == "Worsened" then []
  else ["Invalid outcome \x27" ++ oc ++ "\x27"]

/-- The duplicate-detection key `f"{patient_id}_{trial_code}_{drug_code}"`. -/
def dupKey (p t d : String) : String := p ++ "_" ++ t ++ "_" ++ d

/-- All messages the row loop accumulates in `record_errors` for one
nine-field row, in source order. -/
def recordErrors (seen : List String) (p t d dos sd ed oc se an : String) : List String :=
  (if missingFieldsDefect p t d dos sd ed oc se an then ["Missing required fields"] else []) ++
  dosageErrors dos ++ dateErrors sd ed ++ outcomeErrors oc ++
  (if seen.contains (dupKey p t d) then ["Duplicate record"] else [])

/-- Number of distinct defect categories a nine-field row triggers. -/
def defectCount (seen : List String) (p t d dos sd ed oc se an : String) : Nat :=
  (if missingFieldsDefect p t d dos sd ed oc se an then 1 else 0) +
  (if dosageDefect dos then 1 else 0) +
  (if dateDefect sd ed then 1 else 0) +
  (if outcomeDefect oc then 1 else 0) +
  (if seen.contains (dupKey p t d) then 1 else 0)

/-- Loop state of `_validate_csv_content`'s row scan. -/
structure RowState where
  errors : List String
  valid_records : List (List String)
  seen : List String
  row_num : Nat
deriving DecidableEq

/-- One iteration of the row loop of `_validate_csv_content`. -/
def processRow (st : RowState) (row : List String) : RowState :=
  match row with
  | [p, t, d, dos, sd, ed, oc, se, an] =>
    let n := st.row_num + 1
    let recErrs := recordErrors st.seen p t d dos sd ed oc se an
    let seen2 := if st.seen.contains (dupKey p t d) then st.seen else dupKey p t d :: st.seen
    if recErrs = [] then
      { errors := st.errors, valid_records := st.valid_records ++ [row],
        seen := seen2, row_num := n }
    else
      { errors := st.errors ++ ["Row " ++ toString n ++ ": " ++ joinWith "; " recErrs],
        valid_records := st.valid_records, seen := seen2, row_num := n }
  | _ =>
    { errors := st.errors ++
        ["Row " ++ toString (st.row_num + 1) ++ ": Expected 9 fields, got " ++
          toString row.length],
      valid_records := st.valid_records, seen := st.seen, row_num := st.row_num + 1 }

/-- The source's `_validate_csv_content`, over the parsed rows of the file:
verdict, ordered error list, and valid-record count.  The progress events it
streams to the status queue do not affect the result and are modelled at the
pipeline level only. -/
def validate_csv_content (rows : List (List String)) : Bool × List String × Nat :=
  match rows with
  | [] => (false, ["File is empty"], 0)
  | header :: dataRows =>
    if header = expected_fields then
      let st := dataRows.foldl processRow ⟨[], [], [], 1⟩
      if st.errors = [] then (true, [], st.valid_records.length)
      else (false, st.errors, st.valid_records.length)
    else
      (false, [header_error_msg], 0)

/-- Severity tags of status events placed on the worker queue. -/
inductive Tag where
  | info | success | warning | error | complete | summary
deriving DecidableEq

/-- One line of the append-only error log written by `_log_error`. -/
structure LogEntry where
  timestamp : String
  guid : String
  filename : String
  message : String
deriving DecidableEq

/-- Rendering of a log entry, exactly the f-string of `_log_error`. -/
def renderLogEntry (e : LogEntry) : String :=
  "[" ++ e.timestamp ++ "] GUID: " ++ e.guid ++ " | File: " ++ e.filename ++
  " | Error: " ++ e.message ++ "\n"

/-- Message written to the error log on content-validation failure: the first
three error strings joined with a bar, plus a count of the remaining ones. -/
def errorSummary (errors : List String) : String :=
  if errors.length > 3 then
    joinWith " | " (errors.take 3) ++ " ... and " ++ toString (errors.length - 3) ++ " more"
  else
    joinWith " | " (errors.take 3)

/-- Characters at which Python `str.splitlines` breaks a line (`\r\n` is a
single break and is handled separately in `splitlinesChars`). -/
def isLineBreak (c : Char) : Bool :=
  c == '\n' || c == '\r' || c == '\x0b' || c == '\x0c' ||
  c == '\x1c' || c == '\x1d' || c == '\x1e' || c == '\x85' ||
  c == '\u2028' || c == '\u2029'

/-- Worker behind the `str.splitlines` model.  The flag is set after a
carriage return so that an immediately following newline is part of the same
`\r\n` break instead of opening another line. -/
def splitlinesAux : Bool → List Char → List (List Char)
  | _, [] => []
  | skipNl, c :: rest =>
    if skipNl = true ∧ c = '\n' then splitlinesAux false rest
    else if c = '\r' then [] :: splitlinesAux true rest
    else if isLineBreak c then [] :: splitlinesAux false rest
    else
      match splitlinesAux false rest with
      | [] => [[c]]
      | l :: ls => (c :: l) :: ls

/-- Model of Python `str.splitlines` over the characters of the string. -/
def splitlinesChars (cs : List Char) : List (List Char) := splitlinesAux false cs

/-- Model of `str.splitlines` on strings. -/
def pySplitlines (s : String) : List String :=
  (splitlinesChars s.data).map (fun l => ⟨l⟩)

/-- The in-memory registry update of `_save_processed_file`
(`self.processed_files.add(filename)`); the set is modelled as a
duplicate-free list under `contains`. -/
def registryAdd (reg : List String) (filename : String) : List String :=
  if reg.contains filename then reg else filename :: reg

/-- The snapshot `_save_processed_file` writes:
`"\n".join(sorted(self.processed_files))`. -/
def registrySave (reg : List String) : String :=
  joinWith "\n" (List.insertionSort (fun a b : String => a ≤ b) reg)

/-- The load of `_load_processed_files`:
`set(path.read_text().splitlines())` (set contents as a list of lines). -/
def registryLoad (s : String) : List String :=
  pySplitlines s

/-- State touched by one `process_selected_files` iteration: the registry and
its persisted snapshot, the names placed in the archive and error areas, the
error log, the download attempts, and the emitted status events. -/
structure PState where
  registry : List String
  registryFile : String
  archive : List String
  errorFiles : List String
  errorLog : List LogEntry
  downloads : List String
  events : List (String × Tag)
deriving DecidableEq

/-- An all-empty pipeline state. -/
def pstate0 : PState := ⟨[], "", [], [], [], [], []⟩

/-- The separator event `f"\n{'='*60}"`. -/
def sepEvent : String × Tag := ("\n" ++ ⟨List.replicate 60 '='⟩, Tag.info)

/-- One iteration of the loop of `process_selected_files`, for one filename.
`fetch` abstracts `ftp.retrbinary` composed with CSV parsing (`none` is a
download failure, whose exception text is not modelled); `archiveOk`
abstracts whether the rename into the archive area succeeds; `ts` is the
wall-clock timestamp string; `date` is `datetime.now().strftime("%Y%m%d")`;
`guidAt n` is the GUID `uuid.uuid4()` returns for the `n`-th log entry.
Progress events emitted from inside `_validate_csv_content` are not
modelled; all other `status_queue.put` calls are, in source order. -/
def process_one_file (fetch : String → Option (List (List String)))
    (archiveOk : Bool) (ts date : String) (guidAt : Nat → String)
    (s : PState) (filename : String) : PState :=
  if s.registry.contains filename then
    { s with events := s.events ++
        [("\n⏭️ Skipping: " ++ filename ++ " (already processed)", Tag.warning)] }
  else
    match fetch filename with
    | none =>
      { s with downloads := s.downloads ++ [filename],
               events := s.events ++
                 [sepEvent, ("Processing: " ++ filename, Tag.info),
                  ("  ❌ Fatal error", Tag.error)] }
    | some rows =>
      let s1 : PState :=
        { s with downloads := s.downloads ++ [filename],
                 events := s.events ++
                   [sepEvent, ("Processing: " ++ filename, Tag.info),
                    ("  📥 Downloaded successfully", Tag.success)] }
      if validate_filename_pattern filename then
        let s2 : PState :=
          { s1 with events := s1.events ++ [("  ✓ Filename pattern valid", Tag.success)] }
        let r := validate_csv_content rows
        if r.1 then
          if archiveOk then
            let an := archive_filename filename date
            let reg2 := registryAdd s2.registry filename
            { s2 with archive := s2.archive ++ [an],
                      registry := reg2,
                      registryFile := registrySave reg2,
                      events := s2.events ++
                        [("  ✅ Archived as: " ++ an ++ " (" ++ toString r.2.2 ++
                          " records)", Tag.success)] }
          else
            let g := guidAt s2.errorLog.length
            { s2 with errorLog := s2.errorLog ++ [⟨ts, g, filename, "Archival failed"⟩],
                      events := s2.events ++
                        [("  ❌ Archival error (GUID: " ++ g ++ ")", Tag.error)] }
        else
          let g := guidAt s2.errorLog.length
          { s2 with errorFiles := s2.errorFiles ++ [filename],
                    errorLog := s2.errorLog ++ [⟨ts, g, filename, errorSummary r.2.1⟩],
                    events := s2.events ++
                      [("  ❌ Rejected (" ++ toString r.2.1.length ++ " errors)", Tag.error)] ++
                      (r.2.1.take 3).map (fun e => ("    • " ++ e, Tag.error)) }
      else
        let g := guidAt s1.errorLog.length
        { s1 with errorFiles := s1.errorFiles ++ [filename],
                  errorLog := s1.errorLog ++ [⟨ts, g, filename, "Invalid filename pattern"⟩],
                  events := s1.events ++
                    [("  ✗ Invalid pattern (expected CLINICALDATAYYYYMMDDHHMMSS.CSV)", Tag.error),
                     ("  ❌ Rejected - Invalid pattern (GUID: " ++ g ++ ")", Tag.error)] }

/-- The whole batch loop of `process_selected_files`. -/
def process_selected_files (fetch : String → Option (List (List String)))
    (archiveOk : Bool) (ts date : String) (guidAt : Nat → String)
    (s : PState) (files : List String) : PState :=
  files.foldl (process_one_file fetch archiveOk ts date guidAt) s

/-- State of the GUI coordinator: the `is_processing` flag, the number of
worker threads currently running, and the queued event tags. -/
structure GuiState where
  isProcessing : Bool
  activeWorkers : Nat
  chan : List Tag
deriving DecidableEq

/-- The idle coordinator. -/
def guiState0 : GuiState := ⟨false, 0, []⟩

/-- Actions of the coordinator model: a button submission
(`validate_selected` / `process_selected`), a running worker putting an event
on the queue, a worker putting its terminal `complete` event and exiting, and
`check_queue` consuming one queued event. -/
inductive GAction where
  | submit
  | emit (t : Tag)
  | finish
  | consume
deriving DecidableEq

/-- One step of the coordinator, as the source implements it: `submit`
returns immediately when `is_processing` is set, otherwise sets the flag and
starts one more worker thread; `check_queue` clears `is_processing` whenever
the consumed tag is `complete` or `error` (the `tag in ["complete", "error"]`
test). -/
def guiStep (s : GuiState) (a : GAction) : GuiState :=
  match a with
  | GAction.submit =>
    if s.isProcessing then s
    else { s with isProcessing := true, activeWorkers := s.activeWorkers + 1 }
  | GAction.emit t =>
    if s.activeWorkers > 0 then { s with chan := s.chan ++ [t] } else s
  | GAction.finish =>
    if s.activeWorkers > 0 then
      { s with chan := s.chan ++ [Tag.complete], activeWorkers := s.activeWorkers - 1 }
    else s
  | GAction.consume =>
    match s.chan with
    | [] => s
    | t :: rest =>
      { s with chan := rest,
               isProcessing := if t = Tag.complete ∨ t = Tag.error then false
                               else s.isProcessing }

/-- Run the coordinator over a list of actions. -/
def guiRun (s : GuiState) (as : List GAction) : GuiState :=
  as.foldl guiStep s

/-! Theorems about the embedded program. -/

/-- C5: for every input, the verdict returned by content validation is `true`
exactly when the returned error list is empty. -/
theorem C5_theorem (rows : List (List String)) :
    (validate_csv_content rows).1 = true ↔ (validate_csv_content rows).2.1 = [] := by
  cases rows with
  | nil => simp [validate_csv_content]
  | cons header dataRows =>
    by_cases h : header = expected_fields
    · by_cases he : (dataRows.foldl processRow ⟨[], [], [], 1⟩).errors = []
      · simp [validate_csv_content, h, he]
      · simp [validate_csv_content, h, he]
    · simp [validate_csv_content, h, header_error_msg]

/-- C5 witness: the invariant evaluated at a concrete input. -/
theorem C5_witness :
    (validate_csv_content [["x"]]).1 = true ↔ (validate_csv_content [["x"]]).2.1 = [] :=
  C5_theorem [["x"]]

/-- C2: an empty file, or a first row different from the fixed header, yields
an invalid verdict with exactly one explanatory error and zero valid records,
and (for the header-mismatch case) the result is the same whatever the
remaining rows are, so they are never scanned. -/
theorem C2_theorem :
    validate_csv_content [] = (false, ["File is empty"], 0) ∧
    ∀ hd t, hd ≠ expected_fields →
      validate_csv_content (hd :: t) = (false, [header_error_msg], 0) := by
  constructor
  · rfl
  · intro hd t h
    simp [validate_csv_content, h]

/-- C2 witness: the header-mismatch case evaluated at a concrete input. -/
theorem C2_witness :
    validate_csv_content [] = (false, ["File is empty"], 0) ∧
    validate_csv_content [["x"], ["y"]] = (false, [header_error_msg], 0) :=
  ⟨C2_theorem.1, C2_theorem.2 ["x"] [["y"]] (by decide)⟩

/-- Concrete file for C10: two rows whose (PatientID, TrialCode, DrugCode)
triples differ but whose underscore-joined keys coincide. -/
def c10File : List (List String) :=
  [expected_fields,
   ["A_B", "C", "D", "10", "2024-01-01", "2024-01-02", "Improved", "None", "A"],
   ["A", "B_C", "D", "10", "2024-01-01", "2024-01-02", "Improved", "None", "A"]]

/-- C10: duplicate detection keys rows by the underscore-join of PatientID,
TrialCode and DrugCode, so the distinct triples ("A_B","C","D") and
("A","B_C","D") collide, and the later row is flagged as a duplicate and
excluded from the valid-record count. -/
theorem C10_theorem :
    dupKey "A_B" "C" "D" = dupKey "A" "B_C" "D" ∧
    (("A_B", "C", "D") : String × String × String) ≠ ("A", "B_C", "D") ∧
    validate_csv_content c10File = (false, ["Row 3: Duplicate record"], 1) := by
  exact ⟨by decide, by decide, by decide⟩

/-- C9: evaluating the coordinator model on a concrete action sequence shows
that consuming an error-tagged event (which every mid-run failure produces)
clears the busy flag while the worker is still running, after which a second
submission is accepted and two workers are in flight simultaneously. -/
theorem C9_theorem :
    (guiRun guiState0 [GAction.submit, GAction.emit Tag.error,
        GAction.consume]).isProcessing = false ∧
    (guiRun guiState0 [GAction.submit, GAction.emit Tag.error,
        GAction.consume]).activeWorkers = 1 ∧
    (guiRun guiState0 [GAction.submit, GAction.emit Tag.error,
        GAction.consume, GAction.submit]).activeWorkers = 2 := by
  exact ⟨by decide, by decide, by decide⟩

/-- C6: a filename already present in the registry is skipped: the only state
change is one skip event, so there is no download, no file movement, no
error-log write and no registry mutation. -/
theorem C6_theorem (fetch : String → Option (List (List String)))
    (archiveOk : Bool) (ts date : String) (guidAt : Nat → String)
    (s : PState) (filename : String)
    (h : s.registry.contains filename = true) :
    process_one_file fetch archiveOk ts date guidAt s filename =
      { s with events := s.events ++
          [("\n⏭️ Skipping: " ++ filename ++ " (already processed)", Tag.warning)] } := by
  have hm : filename ∈ s.registry := by simpa using h
  simp [process_one_file, hm]

/-- C6 witness: the skip path evaluated at a concrete state and filename. -/
theorem C6_witness :
    process_one_file (fun _ => none) true "TS" "20250101" (fun _ => "G")
      { pstate0 with registry := ["F.CSV"] } "F.CSV" =
      { ({ pstate0 with registry := ["F.CSV"] } : PState) with
          events := ({ pstate0 with registry := ["F.CSV"] } : PState).events ++
            [("\n⏭️ Skipping: " ++ "F.CSV" ++ " (already processed)", Tag.warning)] } :=
  C6_theorem (fun _ => none) true "TS" "20250101" (fun _ => "G")
    { pstate0 with registry := ["F.CSV"] } "F.CSV" (by decide)

/-- The dosage check contributes one message exactly when the dosage field is
defective. -/
theorem length_dosageErrors (dos : String) :
    (dosageErrors dos).length = if dosageDefect dos then 1 else 0 := by
  unfold dosageErrors dosageDefect
  cases pyInt dos with
  | none => simp
  | some v =>
    by_cases hv : v ≤ 0
    · simp [hv]
    · simp [hv]

/-- The date check contributes one message exactly when the dates are
defective. -/
theorem length_dateErrors (sd ed : String) :
    (dateErrors sd ed).length = if dateDefect sd ed then 1 else 0 := by
  unfold dateErrors dateDefect
  cases he : parseDateYMD ed with
  | none => simp
  | some e =>
    cases hs : parseDateYMD sd with
    | none => simp
    | some s =>
      by_cases hlt : dateLt e s
      · simp [hlt]
      · simp [hlt]

/-- The outcome check contributes one message exactly when the outcome field
is defective. -/
theorem length_outcomeErrors (oc : String) :
    (outcomeErrors oc).length = if outcomeDefect oc then 1 else 0 := by
  unfold outcomeErrors outcomeDefect
  by_cases h : (oc == "Improved" || oc == "No Change" || oc == "Worsened") = true
  · simp [h]
  · simp [h]

/-- The list `record_errors` built for a nine-field row has one entry per
triggered defect category. -/
theorem length_recordErrors (seen : List String) (p t d dos sd ed oc se an : String) :
    (recordErrors seen p t d dos sd ed oc se an).length =
      defectCount seen p t d dos sd ed oc se an := by
  unfold recordErrors defectCount
  by_cases h1 : missingFieldsDefect p t d dos sd ed oc se an <;>
    by_cases h5 : dupKey p t d ∈ seen <;>
      simp [h1, h5, length_dosageErrors, length_dateErrors, length_outcomeErrors] <;>
        omega

/-- Concrete file for C3: one data row carrying two independent defects
(non-positive dosage and invalid outcome). -/
def c3File : List (List String) :=
  [expected_fields,
   ["P1", "T1", "D1", "0", "2024-01-01", "2024-01-02", "Bad", "None", "A"]]

/-- C3 counterexample: a row with two defects contributes a single entry to
the returned error list (the two category messages are joined with a
semicolon into one string), not two separate messages as the claim states. -/
theorem C3_counterexample :
    defectCount [] "P1" "T1" "D1" "0" "2024-01-01" "2024-01-02" "Bad" "None" "A" = 2 ∧
    (validate_csv_content c3File).2.1.length = 1 ∧
    validate_csv_content c3File =
      (false,
       ["Row 2: Dosage must be positive integer, got \x270\x27; Invalid outcome \x27Bad\x27"],
       0) := by
  exact ⟨by decide, by decide, by decide⟩

/-- C3 (amended): a nine-field data row with at least one defect contributes
exactly one new entry to the returned error list, formed as "Row n: "
followed by its per-category defect messages joined with "; " (one message
per triggered category, `length_recordErrors`), and the row is excluded from
the valid-record list. -/
theorem C3_theorem (st : RowState) (p t d dos sd ed oc se an : String)
    (h : recordErrors st.seen p t d dos sd ed oc se an ≠ []) :
    (processRow st [p, t, d, dos, sd, ed, oc, se, an]).errors =
      st.errors ++ ["Row " ++ toString (st.row_num + 1) ++ ": " ++
        joinWith "; " (recordErrors st.seen p t d dos sd ed oc se an)] ∧
    (processRow st [p, t, d, dos, sd, ed, oc, se, an]).valid_records =
      st.valid_records ∧
    (recordErrors st.seen p t d dos sd ed oc se an).length =
      defectCount st.seen p t d dos sd ed oc se an := by
  refine ⟨?_, ?_, length_recordErrors st.seen p t d dos sd ed oc se an⟩
  · simp [processRow, h]
  · simp [processRow, h]

/-- C3 witness: the amended row behaviour evaluated on the two-defect row of
`c3File`. -/
theorem C3_witness :
    (processRow ⟨[], [], [], 1⟩
        ["P1", "T1", "D1", "0", "2024-01-01", "2024-01-02", "Bad", "None", "A"]).errors =
      (⟨[], [], [], 1⟩ : RowState).errors ++
        ["Row " ++ toString ((⟨[], [], [], 1⟩ : RowState).row_num + 1) ++ ": " ++
          joinWith "; " (recordErrors (⟨[], [], [], 1⟩ : RowState).seen
            "P1" "T1" "D1" "0" "2024-01-01" "2024-01-02" "Bad" "None" "A")] ∧
    (processRow ⟨[], [], [], 1⟩
        ["P1", "T1", "D1", "0", "2024-01-01", "2024-01-02", "Bad", "None", "A"]).valid_records =
      (⟨[], [], [], 1⟩ : RowState).valid_records ∧
    (recordErrors (⟨[], [], [], 1⟩ : RowState).seen
        "P1" "T1" "D1" "0" "2024-01-01" "2024-01-02" "Bad" "None" "A").length =
      defectCount (⟨[], [], [], 1⟩ : RowState).seen
        "P1" "T1" "D1" "0" "2024-01-01" "2024-01-02" "Bad" "None" "A" :=
  C3_theorem ⟨[], [], [], 1⟩ "P1" "T1" "D1" "0" "2024-01-01" "2024-01-02" "Bad" "None" "A"
    (by decide)

/-- String concatenation is associative (via the underlying lists). -/
theorem string_append_assoc (a b c : String) : a ++ b ++ c = a ++ (b ++ c) := by
  cases a with
  | mk la =>
    cases b with
    | mk lb =>
      cases c with
      | mk lc =>
        show String.mk (la ++ lb ++ lc) = String.mk (la ++ (lb ++ lc))
        rw [List.append_assoc]

/-- C8: when content validation fails, the raw file is moved to the error
area, exactly one log entry is appended whose rendered line has the exact
`[timestamp] GUID: <guid> | File: <filename> | Error: <message>` format with
the message made of the first three error strings joined plus a count of the
remaining ones, and at most the first three errors are reported as separate
status events. -/
theorem C8_theorem (fetch : String → Option (List (List String)))
    (archiveOk : Bool) (ts date : String) (guidAt : Nat → String)
    (s : PState) (filename : String) (rows : List (List String))
    (errs : List String) (cnt : Nat)
    (hmem : s.registry.contains filename = false)
    (hfetch : fetch filename = some rows)
    (hpat : validate_filename_pattern filename = true)
    (hval : validate_csv_content rows = (false, errs, cnt)) :
    (process_one_file fetch archiveOk ts date guidAt s filename).errorFiles =
      s.errorFiles ++ [filename] ∧
    (process_one_file fetch archiveOk ts date guidAt s filename).archive = s.archive ∧
    (process_one_file fetch archiveOk ts date guidAt s filename).registry = s.registry ∧
    (process_one_file fetch archiveOk ts date guidAt s filename).errorLog =
      s.errorLog ++ [⟨ts, guidAt s.errorLog.length, filename, errorSummary errs⟩] ∧
    renderLogEntry ⟨ts, guidAt s.errorLog.length, filename, errorSummary errs⟩ =
      "[" ++ ts ++ "] GUID: " ++ guidAt s.errorLog.length ++ " | File: " ++ filename ++
        " | Error: " ++ errorSummary errs ++ "\n" ∧
    errorSummary errs = joinWith " | " (errs.take 3) ++
      (if 3 < errs.length then " ... and " ++ toString (errs.length - 3) ++ " more"
       else "") ∧
    (process_one_file fetch archiveOk ts date guidAt s filename).events =
      s.events ++
        [sepEvent, ("Processing: " ++ filename, Tag.info),
         ("  📥 Downloaded successfully", Tag.success),
         ("  ✓ Filename pattern valid", Tag.success),
         ("  ❌ Rejected (" ++ toString errs.length ++ " errors)", Tag.error)] ++
        (errs.take 3).map (fun e => ("    • " ++ e, Tag.error)) := by
  have hm : filename ∉ s.registry := by simpa using hmem
  refine ⟨?_, ?_, ?_, ?_, rfl, ?_, ?_⟩
  · simp [process_one_file, hm, hfetch, hpat, hval]
  · simp [process_one_file, hm, hfetch, hpat, hval]
  · simp [process_one_file, hm, hfetch, hpat, hval]
  · simp [process_one_file, hm, hfetch, hpat, hval]
  · by_cases h3 : 3 < errs.length
    · simp [errorSummary, h3, string_append_assoc]
    · simp [errorSummary, h3]
  · simp [process_one_file, hm, hfetch, hpat, hval]

/-- Concrete data for C8: a pattern-valid name whose file has the end date
before the start date (one content error). -/
def c8Name : String := "CLINICALDATA20240101000000.CSV"

/-- Rows of the C8 witness file. -/
def c8Rows : List (List String) :=
  [expected_fields,
   ["P1", "T1", "D1", "10", "2024-01-02", "2024-01-01", "Improved", "None", "A"]]

/-- Fetch oracle of the C8 witness. -/
def c8Fetch : String → Option (List (List String)) :=
  fun n => if n = c8Name then some c8Rows else none

/-- Error list the C8 witness file produces. -/
def c8Errs : List String :=
  ["Row 2: EndDate (2024-01-01) before StartDate (2024-01-02)"]

/-- C8 witness: the content-rejection path evaluated on `c8Rows`. -/
theorem C8_witness :
    (process_one_file c8Fetch true "TS" "20240105" (fun _ => "G") pstate0 c8Name).errorFiles =
      pstate0.errorFiles ++ [c8Name] ∧
    (process_one_file c8Fetch true "TS" "20240105" (fun _ => "G") pstate0 c8Name).archive =
      pstate0.archive ∧
    (process_one_file c8Fetch true "TS" "20240105" (fun _ => "G") pstate0 c8Name).registry =
      pstate0.registry ∧
    (process_one_file c8Fetch true "TS" "20240105" (fun _ => "G") pstate0 c8Name).errorLog =
      pstate0.errorLog ++
        [⟨"TS", (fun _ : Nat => "G") pstate0.errorLog.length, c8Name, errorSummary c8Errs⟩] ∧
    renderLogEntry ⟨"TS", (fun _ : Nat => "G") pstate0.errorLog.length, c8Name,
        errorSummary c8Errs⟩ =
      "[" ++ "TS" ++ "] GUID: " ++ (fun _ : Nat => "G") pstate0.errorLog.length ++
        " | File: " ++ c8Name ++ " | Error: " ++ errorSummary c8Errs ++ "\n" ∧
    errorSummary c8Errs = joinWith " | " (c8Errs.take 3) ++
      (if 3 < c8Errs.length then " ... and " ++ toString (c8Errs.length - 3) ++ " more"
       else "") ∧
    (process_one_file c8Fetch true "TS" "20240105" (fun _ => "G") pstate0 c8Name).events =
      pstate0.events ++
        [sepEvent, ("Processing: " ++ c8Name, Tag.info),
         ("  📥 Downloaded successfully", Tag.success),
         ("  ✓ Filename pattern valid", Tag.success),
         ("  ❌ Rejected (" ++ toString c8Errs.length ++ " errors)", Tag.error)] ++
        (c8Errs.take 3).map (fun e => ("    • " ++ e, Tag.error)) :=
  C8_theorem c8Fetch true "TS" "20240105" (fun _ => "G") pstate0 c8Name c8Rows c8Errs 0
    (by decide) (by decide) (by decide) (by decide)

/-- Concrete data for C1: a pattern-valid all-lowercase filename. -/
def c1Name : String := "clinicaldata00000000000000.csv"

/-- Concrete data for C1: a pattern-valid filename with a mixed-case
extension. -/
def c1NameB : String := "CLINICALDATA00000000000000.Csv"

/-- Rows of the C1 files: one fully conforming record. -/
def c1Rows : List (List String) :=
  [expected_fields,
   ["P1", "T1", "D1", "10", "2024-01-01", "2024-01-02", "Improved", "None", "A"]]

/-- Fetch oracle of the C1 runs. -/
def c1Fetch : String → Option (List (List String)) :=
  fun n => if n = c1Name then some c1Rows else if n = c1NameB then some c1Rows else none

/-- Pipeline run of C1 on the lowercase name. -/
def c1Run : PState :=
  process_one_file c1Fetch true "TS" "20250101" (fun _ => "G") pstate0 c1Name

/-- Pipeline run of C1 on the mixed-case-extension name. -/
def c1RunB : PState :=
  process_one_file c1Fetch true "TS" "20250101" (fun _ => "G") pstate0 c1NameB

/-- C1 counterexample: the archived name always ends in the literal uppercase
`.CSV`, not the original extension (`.csv` input), and a mixed-case extension
`.Csv` is not stripped from the base name at all, so the claimed name
`<base>_<date>.<original ext>` is not the one produced. -/
theorem C1_counterexample :
    c1Run.archive = ["clinicaldata00000000000000_20250101.CSV"] ∧
    "clinicaldata00000000000000_20250101.csv" ∉ c1Run.archive ∧
    c1RunB.archive = ["CLINICALDATA00000000000000.Csv_20250101.CSV"] ∧
    "CLINICALDATA00000000000000_20250101.Csv" ∉ c1RunB.archive := by
  exact ⟨by decide, by decide, by decide, by decide⟩

/-- C1 (amended): for a file passing both validations, when the move into the
archive succeeds the file is archived under the name obtained by deleting the
exact substrings `.CSV` and `.csv` from the original name and appending an
underscore, the processing date, and the literal uppercase `.CSV`
(`archive_filename`), and the original filename is added to the registry
(with the persisted snapshot rewritten); when the move fails the registry is
unchanged — the registry gains the filename exactly when the move
succeeds. -/
theorem C1_theorem (fetch : String → Option (List (List String)))
    (archiveOk : Bool) (ts date : String) (guidAt : Nat → String)
    (s : PState) (filename : String) (rows : List (List String))
    (hmem : s.registry.contains filename = false)
    (hfetch : fetch filename = some rows)
    (hpat : validate_filename_pattern filename = true)
    (hval : (validate_csv_content rows).1 = true) :
    (archiveOk = true →
      (process_one_file fetch archiveOk ts date guidAt s filename).archive =
        s.archive ++ [archive_filename filename date] ∧
      (process_one_file fetch archiveOk ts date guidAt s filename).registry =
        filename :: s.registry ∧
      (process_one_file fetch archiveOk ts date guidAt s filename).registryFile =
        registrySave (filename :: s.registry) ∧
      (process_one_file fetch archiveOk ts date guidAt s filename).errorFiles =
        s.errorFiles) ∧
    (archiveOk = false →
      (process_one_file fetch archiveOk ts date guidAt s filename).archive = s.archive ∧
      (process_one_file fetch archiveOk ts date guidAt s filename).registry = s.registry) ∧
    ((process_one_file fetch archiveOk ts date guidAt s filename).registry.contains
        filename = true ↔ archiveOk = true) := by
  have hm : filename ∉ s.registry := by simpa using hmem
  have hr : registryAdd s.registry filename = filename :: s.registry := by
    simp [registryAdd, hm]
  cases archiveOk with
  | true =>
    refine ⟨fun _ => ⟨?_, ?_, ?_, ?_⟩, fun hff => Bool.noConfusion hff, ?_⟩
    · simp [process_one_file, hm, hfetch, hpat, hval, hr]
    · simp [process_one_file, hm, hfetch, hpat, hval, hr]
    · simp [process_one_file, hm, hfetch, hpat, hval, hr]
    · simp [process_one_file, hm, hfetch, hpat, hval, hr]
    · simp [process_one_file, hm, hfetch, hpat, hval, hr]
  | false =>
    refine ⟨fun htt => Bool.noConfusion htt, fun _ => ⟨?_, ?_⟩, ?_⟩
    · simp [process_one_file, hm, hfetch, hpat, hval]
    · simp [process_one_file, hm, hfetch, hpat, hval]
    · simp [process_one_file, hm, hfetch, hpat, hval, hmem]

/-- C1 witness: the amended archive behaviour evaluated on the lowercase
run `c1Run`. -/
theorem C1_witness :
    (true = true →
      (process_one_file c1Fetch true "TS" "20250101" (fun _ => "G") pstate0 c1Name).archive =
        pstate0.archive ++ [archive_filename c1Name "20250101"] ∧
      (process_one_file c1Fetch true "TS" "20250101" (fun _ => "G") pstate0 c1Name).registry =
        c1Name :: pstate0.registry ∧
      (process_one_file c1Fetch true "TS" "20250101" (fun _ => "G") pstate0
          c1Name).registryFile = registrySave (c1Name :: pstate0.registry) ∧
      (process_one_file c1Fetch true "TS" "20250101" (fun _ => "G") pstate0
          c1Name).errorFiles = pstate0.errorFiles) ∧
    (true = false →
      (process_one_file c1Fetch true "TS" "20250101" (fun _ => "G") pstate0 c1Name).archive =
        pstate0.archive ∧
      (process_one_file c1Fetch true "TS" "20250101" (fun _ => "G") pstate0 c1Name).registry =
        pstate0.registry) ∧
    ((process_one_file c1Fetch true "TS" "20250101" (fun _ => "G") pstate0
        c1Name).registry.contains c1Name = true ↔ true = true) :=
  C1_theorem c1Fetch true "TS" "20250101" (fun _ => "G") pstate0 c1Name c1Rows
    (by decide) (by decide) (by decide) (by decide)

/-- Unfolding of `splitlinesChars` on a head character other than a carriage
return (so the `\r\n` arm cannot fire). -/
theorem splitlinesChars_cons_of_ne (c : Char) (l : List Char) (hc : c ≠ '\r') :
    splitlinesChars (c :: l) =
      if isLineBreak c then [] :: splitlinesChars l
      else
        match splitlinesChars l with
        | [] => [[c]]
        | x :: xs => (c :: x) :: xs := by
  show splitlinesAux false (c :: l) = _
  rw [splitlinesAux]
  simp only [false_and, if_false, hc, if_neg, if_true]
  rfl

/-- A run of non-break characters followed by a newline is split off as one
line. -/
theorem splitlinesChars_block (cs rest : List Char)
    (h : ∀ c ∈ cs, isLineBreak c = false) :
    splitlinesChars (cs ++ '\n' :: rest) = cs :: splitlinesChars rest := by
  induction cs with
  | nil =>
    rw [List.nil_append, splitlinesChars_cons_of_ne '\n' rest (by decide)]
    simp [isLineBreak]
  | cons c cs ih =>
    have hc : isLineBreak c = false := h c (by simp)
    have hcr : c ≠ '\r' := by
      intro hcc
      rw [hcc] at hc
      simp [isLineBreak] at hc
    rw [List.cons_append, splitlinesChars_cons_of_ne c _ hcr, if_neg (by simp [hc]),
      ih (fun x hx => h x (by simp [hx]))]

/-- A nonempty run of non-break characters splits into a single line. -/
theorem splitlinesChars_clean (cs : List Char)
    (h : ∀ c ∈ cs, isLineBreak c = false) (hne : cs ≠ []) :
    splitlinesChars cs = [cs] := by
  induction cs with
  | nil => exact absurd rfl hne
  | cons c cs ih =>
    have hc : isLineBreak c = false := h c (by simp)
    have hcr : c ≠ '\r' := by
      intro hcc
      rw [hcc] at hc
      simp [isLineBreak] at hc
    rw [splitlinesChars_cons_of_ne c _ hcr, if_neg (by simp [hc])]
    cases cs with
    | nil => rfl
    | cons d cs2 =>
      rw [ih (fun x hx => h x (by simp [hx])) (by simp)]

/-- Splitting the newline-join of clean nonempty lines recovers the lines. -/
theorem pySplitlines_joinWith (l : List String)
    (h : ∀ x ∈ l, x.data ≠ [] ∧ ∀ c ∈ x.data, isLineBreak c = false) :
    pySplitlines (joinWith "\n" l) = l := by
  induction l with
  | nil => rfl
  | cons x xs ih =>
    cases xs with
    | nil =>
      show (splitlinesChars (joinWith "\n" [x]).data).map (fun l => String.mk l) = [x]
      have hx := h x (by simp)
      rw [show joinWith "\n" [x] = x from rfl, splitlinesChars_clean x.data hx.2 hx.1]
      rfl
    | cons y ys =>
      show (splitlinesChars (joinWith "\n" (x :: y :: ys)).data).map
          (fun l => String.mk l) = x :: y :: ys
      have hx := h x (by simp)
      have hdata : (joinWith "\n" (x :: y :: ys)).data =
          x.data ++ '\n' :: (joinWith "\n" (y :: ys)).data := by
        rw [show joinWith "\n" (x :: y :: ys) = x ++ "\n" ++ joinWith "\n" (y :: ys) from
          rfl, String.data_append, String.data_append]
        simp
      rw [hdata, splitlinesChars_block x.data _ hx.2]
      have ih2 := ih (fun z hz => h z (by simp [hz]))
      show String.mk x.data ::
          (splitlinesChars (joinWith "\n" (y :: ys)).data).map (fun l => String.mk l) =
          x :: y :: ys
      rw [show String.mk x.data = x from rfl]
      exact congrArg (fun t => x :: t) ih2

/-- C7 counterexample: adding the filename "a\nb" (which the claim's
universal quantification over every set of filenames admits) produces a
snapshot that loads back as the two filenames "a" and "b", so the loaded set
is not the saved in-memory set. -/
theorem C7_counterexample :
    registryLoad (registrySave (registryAdd [] "a\nb")) = ["a", "b"] ∧
    "a\nb" ∈ registryAdd [] "a\nb" ∧
    "a\nb" ∉ registryLoad (registrySave (registryAdd [] "a\nb")) := by
  exact ⟨by decide, by decide, by decide⟩

/-- C7 (amended): for every registry whose filenames (after the addition) are
nonempty and contain no line-break characters, `add` rewrites the persisted
snapshot as the lexically sorted newline-join of the set, the added filename
is contained in the in-memory set, and loading the snapshot yields exactly
the saved set. -/
theorem C7_theorem (reg : List String) (f : String)
    (h : ∀ x ∈ registryAdd reg f,
      x.data ≠ [] ∧ ∀ c ∈ x.data, isLineBreak c = false) :
    f ∈ registryAdd reg f ∧
    pySplitlines (registrySave (registryAdd reg f)) =
      List.insertionSort (fun a b : String => a ≤ b) (registryAdd reg f) ∧
    List.Sorted (fun a b : String => a ≤ b)
      (List.insertionSort (fun a b : String => a ≤ b) (registryAdd reg f)) ∧
    (registryLoad (registrySave (registryAdd reg f))).toFinset =
      (registryAdd reg f).toFinset := by
  have hperm := List.perm_insertionSort (fun a b : String => a ≤ b) (registryAdd reg f)
  have hsplit : pySplitlines (registrySave (registryAdd reg f)) =
      List.insertionSort (fun a b : String => a ≤ b) (registryAdd reg f) := by
    unfold registrySave
    exact pySplitlines_joinWith _ (fun x hx => h x (hperm.mem_iff.mp hx))
  refine ⟨?_, hsplit, List.sorted_insertionSort _ _, ?_⟩
  · unfold registryAdd
    by_cases hf : f ∈ reg
    · simp [hf]
    · simp [hf]
  · rw [show registryLoad (registrySave (registryAdd reg f)) =
      pySplitlines (registrySave (registryAdd reg f)) from rfl, hsplit]
    exact List.toFinset_eq_of_perm _ _ hperm

/-- C7 witness: the amended round-trip evaluated on the singleton registry
obtained by adding "abc" to the empty registry. -/
theorem C7_witness :
    "abc" ∈ registryAdd [] "abc" ∧
    pySplitlines (registrySave (registryAdd [] "abc")) =
      List.insertionSort (fun a b : String => a ≤ b) (registryAdd [] "abc") ∧
    List.Sorted (fun a b : String => a ≤ b)
      (List.insertionSort (fun a b : String => a ≤ b) (registryAdd [] "abc")) ∧
    (registryLoad (registrySave (registryAdd [] "abc"))).toFinset =
      (registryAdd [] "abc").toFinset :=
  C7_theorem [] "abc" (by decide)

/-- Characterization of case-insensitive literal matching: it consumes
exactly the literal's length when the folded prefixes agree. -/
theorem matchLit_eq (ls cs : List Char) :
    matchLit ls cs =
      if (cs.take ls.length).map lowerAscii = ls.map lowerAscii
      then some (cs.drop ls.length) else none := by
  induction ls generalizing cs with
  | nil => simp [matchLit]
  | cons l ls ih =>
    cases cs with
    | nil => simp [matchLit]
    | cons c cs2 =>
      rw [show matchLit (l :: ls) (c :: cs2) =
        (if lowerAscii c = lowerAscii l then matchLit ls cs2 else none) from rfl, ih]
      by_cases hcl : lowerAscii c = lowerAscii l
      · simp [hcl]
      · simp [hcl]

/-- Characterization of digit-run matching: it consumes exactly `n`
characters when the first `n` are digits. -/
theorem matchDigits_eq (n : Nat) (cs : List Char) :
    matchDigits n cs =
      if n ≤ cs.length ∧ (cs.take n).all isAsciiDigit = true
      then some (cs.drop n) else none := by
  induction n generalizing cs with
  | zero => simp [matchDigits]
  | succ n ih =>
    cases cs with
    | nil => simp [matchDigits]
    | cons c cs2 =>
      rw [show matchDigits (n + 1) (c :: cs2) =
        (if isAsciiDigit c then matchDigits n cs2 else none) from rfl, ih]
      by_cases hd : isAsciiDigit c
      · simp [hd, Nat.add_le_add_iff_right]
      · simp [hd]

/-- The regex embedding evaluated through the two characterizations. -/
theorem clinicalNameMatch_eq (cs : List Char) :
    clinicalNameMatch cs =
      if ((cs.take 12).map lowerAscii = "CLINICALDATA".data.map lowerAscii ∧
          (14 ≤ (cs.drop 12).length ∧ ((cs.drop 12).take 14).all isAsciiDigit = true) ∧
          (((cs.drop 12).drop 14).take 4).map lowerAscii = ".CSV".data.map lowerAscii)
      then dollarEnd (((cs.drop 12).drop 14).drop 4)
      else false := by
  unfold clinicalNameMatch
  rw [matchLit_eq, show ("CLINICALDATA".data).length = 12 from rfl]
  by_cases h1 : (cs.take 12).map lowerAscii = "CLINICALDATA".data.map lowerAscii
  · rw [if_pos h1]
    simp only [Option.some_bind]
    rw [matchDigits_eq]
    by_cases h2 : 14 ≤ (cs.drop 12).length ∧ ((cs.drop 12).take 14).all isAsciiDigit = true
    · rw [if_pos h2]
      simp only [Option.some_bind]
      rw [matchLit_eq, show (".CSV".data).length = 4 from rfl]
      by_cases h3 : (((cs.drop 12).drop 14).take 4).map lowerAscii =
          ".CSV".data.map lowerAscii
      · rw [if_pos h3, if_pos ⟨h1, h2, h3⟩]
        rfl
      · rw [if_neg h3, if_neg (by tauto)]
        rfl
    · rw [if_neg h2]
      simp only [Option.none_bind]
      rw [if_neg (by tauto)]
      rfl
  · rw [if_neg h1]
    simp only [Option.none_bind]
    rw [if_neg (by tauto)]
    rfl

/-- Components of a spec-shaped name. -/
theorem spec_components (cs : List Char) (h : isSpecShapedName cs = true) :
    cs.length = 30 ∧
    (cs.take 12).map lowerAscii = "CLINICALDATA".data.map lowerAscii ∧
    ((cs.drop 12).take 14).all isAsciiDigit = true ∧
    ((cs.drop 12).drop 14).map lowerAscii = ".CSV".data.map lowerAscii := by
  simpa [isSpecShapedName, Bool.and_eq_true, decide_eq_true_eq, and_assoc] using h

/-- Assembling a spec-shaped name from its components. -/
theorem spec_of_components (cs : List Char)
    (hlen : cs.length = 30)
    (h1 : (cs.take 12).map lowerAscii = "CLINICALDATA".data.map lowerAscii)
    (h2 : ((cs.drop 12).take 14).all isAsciiDigit = true)
    (h3 : ((cs.drop 12).drop 14).map lowerAscii = ".CSV".data.map lowerAscii) :
    isSpecShapedName cs = true := by
  unfold isSpecShapedName
  rw [Bool.and_eq_true, Bool.and_eq_true, Bool.and_eq_true]
  exact ⟨⟨⟨decide_eq_true hlen, decide_eq_true h1⟩, h2⟩, decide_eq_true h3⟩

/-- The regex of `_validate_filename_pattern` accepts exactly the spec-shaped
names possibly followed by one trailing newline. -/
theorem clinicalNameMatch_iff (cs : List Char) :
    clinicalNameMatch cs = true ↔
      (isSpecShapedName cs = true ∨
        ∃ ds, cs = ds ++ ['\n'] ∧ isSpecShapedName ds = true) := by
  rw [clinicalNameMatch_eq]
  constructor
  · intro h
    by_cases hC : ((cs.take 12).map lowerAscii = "CLINICALDATA".data.map lowerAscii ∧
        (14 ≤ (cs.drop 12).length ∧ ((cs.drop 12).take 14).all isAsciiDigit = true) ∧
        (((cs.drop 12).drop 14).take 4).map lowerAscii = ".CSV".data.map lowerAscii)
    case neg => rw [if_neg hC] at h; exact absurd h (by simp)
    rw [if_pos hC] at h
    obtain ⟨h1, ⟨h2len, h2all⟩, h3⟩ := hC
    have l3 : 30 ≤ cs.length := by
      have hl4 := congrArg List.length h3
      simp only [List.length_map, List.length_take, List.length_drop,
        show (".CSV".data).length = 4 from rfl] at hl4
      omega
    rw [show (((cs.drop 12).drop 14).drop 4) = cs.drop 30 by
      rw [List.drop_drop, List.drop_drop]] at h
    have hde : cs.drop 30 = [] ∨ cs.drop 30 = ['\n'] := by
      simpa [dollarEnd] using h
    have hseg : (cs.drop 12).drop 14 = cs.drop 26 := by rw [List.drop_drop]
    rcases hde with h30 | h30
    · left
      have hlen : cs.length = 30 := by
        rw [List.drop_eq_nil_iff] at h30
        omega
      refine spec_of_components cs hlen h1 h2all ?_
      have hfull : ((cs.drop 12).drop 14).take 4 = (cs.drop 12).drop 14 := by
        apply List.take_of_length_le
        simp only [List.length_drop]
        omega
      rwa [hfull] at h3
    · right
      have hlen : cs.length = 31 := by
        have := congrArg List.length h30
        simp only [List.length_drop, List.length_cons, List.length_nil] at this
        omega
      refine ⟨cs.take 30, ?_, ?_⟩
      · conv_lhs => rw [← List.take_append_drop 30 cs]
        rw [h30]
      · have e1 : (cs.take 30).take 12 = cs.take 12 := by
          simp [List.take_take]
        have e2 : (cs.take 30).drop 12 = (cs.drop 12).take 18 := by
          simp [List.drop_take]
        refine spec_of_components _ ?_ ?_ ?_ ?_
        · simp only [List.length_take]
          omega
        · rw [e1]
          exact h1
        · rw [e2, show ((cs.drop 12).take 18).take 14 = (cs.drop 12).take 14 by
            simp [List.take_take]]
          exact h2all
        · rw [e2, show ((cs.drop 12).take 18).drop 14 = ((cs.drop 12).drop 14).take 4 by
            simp [List.drop_take]]
          exact h3
  · intro h
    have key : ((cs.take 12).map lowerAscii = "CLINICALDATA".data.map lowerAscii ∧
        (14 ≤ (cs.drop 12).length ∧ ((cs.drop 12).take 14).all isAsciiDigit = true) ∧
        (((cs.drop 12).drop 14).take 4).map lowerAscii = ".CSV".data.map lowerAscii) ∧
        (cs.drop 30 = [] ∨ cs.drop 30 = ['\n']) := by
      rcases h with hspec | ⟨ds, rfl, hspec⟩
      · obtain ⟨hlen, h1, h2, h3⟩ := spec_components cs hspec
        have hfull : ((cs.drop 12).drop 14).take 4 = (cs.drop 12).drop 14 := by
          apply List.take_of_length_le
          simp only [List.length_drop]
          omega
        refine ⟨⟨h1, ⟨by simp only [List.length_drop]; omega, h2⟩, by rw [hfull]; exact h3⟩,
          Or.inl ?_⟩
        rw [List.drop_eq_nil_iff]
        omega
      · obtain ⟨hlen, h1, h2, h3⟩ := spec_components ds hspec
        have e1 : (ds ++ ['\n']).take 12 = ds.take 12 :=
          List.take_append_of_le_length (by omega)
        have e2 : (ds ++ ['\n']).drop 12 = ds.drop 12 ++ ['\n'] :=
          List.drop_append_of_le_length (by omega)
        have e3 : (ds.drop 12 ++ ['\n']).take 14 = (ds.drop 12).take 14 :=
          List.take_append_of_le_length (by simp only [List.length_drop]; omega)
        have e4 : (ds.drop 12 ++ ['\n']).drop 14 = (ds.drop 12).drop 14 ++ ['\n'] :=
          List.drop_append_of_le_length (by simp only [List.length_drop]; omega)
        have e5 : ((ds.drop 12).drop 14 ++ ['\n']).take 4 = (ds.drop 12).drop 14 := by
          rw [List.take_append_of_le_length (by simp only [List.length_drop]; omega)]
          exact List.take_of_length_le (by simp only [List.length_drop]; omega)
        refine ⟨⟨?_, ⟨?_, ?_⟩, ?_⟩, Or.inr ?_⟩
        · rw [e1]
          exact h1
        · rw [e2]
          simp only [List.length_append, List.length_drop, List.length_cons,
            List.length_nil]
          omega
        · rw [e2, e3]
          exact h2
        · rw [e2, e4, e5]
          exact h3
        · rw [List.drop_append_of_le_length (by omega)]
          have hnil : ds.drop 30 = [] := by
            rw [List.drop_eq_nil_iff]
            omega
          rw [hnil]
          rfl
    obtain ⟨hC, hde⟩ := key
    rw [if_pos hC]
    rw [show (((cs.drop 12).drop 14).drop 4) = cs.drop 30 by
      rw [List.drop_drop, List.drop_drop]]
    rcases hde with h30 | h30
    · simp [dollarEnd, h30]
    · simp [dollarEnd, h30]

/-- C4 counterexample: the exact pattern followed by a trailing newline is
accepted by the validator (Python's `$` anchor also matches just before a
final newline) although the whole name is not of the claimed shape. -/
theorem C4_counterexample :
    validate_filename_pattern "CLINICALDATA00000000000000.CSV\n" = true ∧
    isSpecShapedName "CLINICALDATA00000000000000.CSV\n".data = false := by
  exact ⟨by decide, by decide⟩

/-- C4 (amended): the filename validator is a pure predicate accepting
exactly the names of the fixed shape — prefix, 14 decimal digits, extension,
case-insensitive on prefix and extension — possibly followed by one trailing
newline; and in process mode every not-yet-processed file whose name fails
the predicate is moved to the error area with one "Invalid filename pattern"
log entry, no archive or registry change, and an outcome independent of the
file content, so content validation is never invoked. -/
theorem C4_theorem :
    (∀ s : String, validate_filename_pattern s = true ↔
      (isSpecShapedName s.data = true ∨
        ∃ ds, s.data = ds ++ ['\n'] ∧ isSpecShapedName ds = true)) ∧
    (∀ (fetch fetch2 : String → Option (List (List String))) (archiveOk : Bool)
        (ts date : String) (guidAt : Nat → String) (s : PState) (filename : String)
        (rows rows2 : List (List String)),
      s.registry.contains filename = false →
      fetch filename = some rows →
      fetch2 filename = some rows2 →
      validate_filename_pattern filename = false →
      (process_one_file fetch archiveOk ts date guidAt s filename).errorFiles =
        s.errorFiles ++ [filename] ∧
      (process_one_file fetch archiveOk ts date guidAt s filename).errorLog =
        s.errorLog ++
          [⟨ts, guidAt s.errorLog.length, filename, "Invalid filename pattern"⟩] ∧
      (process_one_file fetch archiveOk ts date guidAt s filename).archive =
        s.archive ∧
      (process_one_file fetch archiveOk ts date guidAt s filename).registry =
        s.registry ∧
      process_one_file fetch archiveOk ts date guidAt s filename =
        process_one_file fetch2 archiveOk ts date guidAt s filename) := by
  constructor
  · intro s
    exact clinicalNameMatch_iff s.data
  · intro fetch fetch2 archiveOk ts date guidAt s filename rows rows2 hmem hf1 hf2 hpat
    have hm : filename ∉ s.registry := by simpa using hmem
    refine ⟨?_, ?_, ?_, ?_, ?_⟩ <;>
      simp [process_one_file, hm, hf1, hf2, hpat]

/-- Fetch oracle for the C4 witness (every name maps to the same content). -/
def c4Fetch : String → Option (List (List String)) := fun _ => some [["x"]]

/-- C4 witness: the amended predicate characterization and the rejection path
evaluated on the non-matching name "BADNAME.CSV". -/
theorem C4_witness :
    (validate_filename_pattern "BADNAME.CSV" = true ↔
      (isSpecShapedName "BADNAME.CSV".data = true ∨
        ∃ ds, "BADNAME.CSV".data = ds ++ ['\n'] ∧ isSpecShapedName ds = true)) ∧
    ((process_one_file c4Fetch true "TS" "20250101" (fun _ => "G") pstate0
        "BADNAME.CSV").errorFiles = pstate0.errorFiles ++ ["BADNAME.CSV"] ∧
      (process_one_file c4Fetch true "TS" "20250101" (fun _ => "G") pstate0
        "BADNAME.CSV").errorLog = pstate0.errorLog ++
          [⟨"TS", (fun _ : Nat => "G") pstate0.errorLog.length, "BADNAME.CSV",
            "Invalid filename pattern"⟩] ∧
      (process_one_file c4Fetch true "TS" "20250101" (fun _ => "G") pstate0
        "BADNAME.CSV").archive = pstate0.archive ∧
      (process_one_file c4Fetch true "TS" "20250101" (fun _ => "G") pstate0
        "BADNAME.CSV").registry = pstate0.registry ∧
      process_one_file c4Fetch true "TS" "20250101" (fun _ => "G") pstate0
        "BADNAME.CSV" =
        process_one_file c4Fetch true "TS" "20250101" (fun _ => "G") pstate0
          "BADNAME.CSV") :=
  ⟨C4_theorem.1 "BADNAME.CSV",
   C4_theorem.2 c4Fetch c4Fetch true "TS" "20250101" (fun _ => "G") pstate0
     "BADNAME.CSV" [["x"]] [["x"]] (by decide) rfl rfl (by decide)⟩

end Helix
